import Mathlib

/-!
Shallow embedding of github.com/arran4/interactions (Go).

The repository's `main.go` contains two historical revisions of the same
program:

* a "five-axis" revision (`FiveAxis` namespace here): scenarios are the
  cartesian product of the A/B relation, C influence, D influence, relative
  timing and event/process type patterns (4*4*4*3*4 = 768 scenarios), and
  nodes carry a vertical layer and a process flag;
* a "three-axis" revision (`ThreeAxis` namespace here): scenarios are the
  product of the A/B relation and the C and D influences (4*4*4 = 64
  scenarios) and nodes are plain names.

Shared rasterization helpers (`drawLine`, `drawWrappedLabel`) are identical
in both revisions and are embedded once at top level.
-/

namespace FiveAxis

/-- Go `type Node struct` of the five-axis revision (main.go). -/
structure Node where
  Name : String
  Y : Int
  IsProcess : Bool
deriving DecidableEq, Repr

/-- Go `type Edge struct` of the five-axis revision (main.go). -/
structure Edge where
  From : String
  To : String
  Bidirectional : Bool
deriving DecidableEq, Repr

/-- Go `type Scenario struct` of the five-axis revision (main.go). -/
structure Scenario where
  Title : String
  Subtitle : String
  Nodes : List Node
  Edges : List Edge
deriving DecidableEq, Repr

/-- The `abPatterns` list in `generateScenarios` (five-axis main.go). -/
def abPatterns : List String := ["none", "A->B", "B->A", "A<->B"]

/-- The `cPatterns` list in `generateScenarios` (five-axis main.go). -/
def cPatterns : List String := ["none", "C->A", "C->B", "C->A,B"]

/-- The `dPatterns` list in `generateScenarios` (five-axis main.go). -/
def dPatterns : List String := ["none", "D->A", "D->B", "D->A,B"]

/-- The `timePatterns` list in `generateScenarios` (five-axis main.go). -/
def timePatterns : List String := ["A,B same", "A before B", "B before A"]

/-- The `typePatterns` list in `generateScenarios` (five-axis main.go). -/
def typePatterns : List String := ["A,B events", "A event, B process", "A process, B event", "A,B processes"]

/-- Body of the innermost loop of `generateScenarios` (five-axis main.go):
builds the scenario record for one combination of the five axis patterns.
A Go `switch` without a matching case leaves the zero values `(0, 0)` /
`(false, false)`, which the trailing `else` branches reproduce. -/
def mkScenario (abPat cPat dPat timePat typePat : String) : Scenario :=
  let ys : Int × Int :=
    if timePat = "A,B same" then (0, 0)
    else if timePat = "A before B" then (0, 1)
    else if timePat = "B before A" then (1, 0)
    else (0, 0)
  let procs : Bool × Bool :=
    if typePat = "A,B events" then (false, false)
    else if typePat = "A event, B process" then (false, true)
    else if typePat = "A process, B event" then (true, false)
    else if typePat = "A,B processes" then (true, true)
    else (false, false)
  let aNode : Node := ⟨"A", ys.1, procs.1⟩
  let bNode : Node := ⟨"B", ys.2, procs.2⟩
  let abEdges : List Edge :=
    if abPat = "A->B" then [⟨"A", "B", false⟩]
    else if abPat = "B->A" then [⟨"B", "A", false⟩]
    else if abPat = "A<->B" then [⟨"A", "B", true⟩]
    else []
  let cNodes : List Node := if cPat ≠ "none" then [⟨"C", 0, false⟩] else []
  let cEdges : List Edge :=
    if cPat ≠ "none" then
      (if cPat = "C->A" ∨ cPat = "C->A,B" then [⟨"C", "A", false⟩] else []) ++
      (if cPat = "C->B" ∨ cPat = "C->A,B" then [⟨"C", "B", false⟩] else [])
    else []
  let dNodes : List Node := if dPat ≠ "none" then [⟨"D", 0, false⟩] else []
  let dEdges : List Edge :=
    if dPat ≠ "none" then
      (if dPat = "D->A" ∨ dPat = "D->A,B" then [⟨"D", "A", false⟩] else []) ++
      (if dPat = "D->B" ∨ dPat = "D->A,B" then [⟨"D", "B", false⟩] else [])
    else []
  { Title := "AB: " ++ abPat ++ ", Time: " ++ timePat ++ ", Type: " ++ typePat
    Subtitle := "C: " ++ cPat ++ ", D: " ++ dPat
    Nodes := [aNode, bNode] ++ cNodes ++ dNodes
    Edges := abEdges ++ cEdges ++ dEdges }

/-- The `generateScenarios` (five-axis main.go): nested loops over the five
pattern lists, outermost AB, then C, then D, then timing, then type. -/
def generateScenarios : List Scenario :=
  abPatterns.flatMap fun abPat =>
    cPatterns.flatMap fun cPat =>
      dPatterns.flatMap fun dPat =>
        timePatterns.flatMap fun timePat =>
          typePatterns.map fun typePat =>
            mkScenario abPat cPat dPat timePat typePat

/-- The names of a scenario's nodes. -/
def nodeNames (s : Scenario) : List String := s.Nodes.map Node.Name

end FiveAxis

namespace ThreeAxis

/-- Go `type Edge struct` of the three-axis revision (main.go). -/
structure Edge where
  From : String
  To : String
  Bidirectional : Bool
deriving DecidableEq, Repr

/-- Go `type Scenario struct` of the three-axis revision (main.go): nodes are
plain names. -/
structure Scenario where
  Title : String
  Subtitle : String
  Nodes : List String
  Edges : List Edge
deriving DecidableEq, Repr

/-- The `abTitle` (three-axis main.go). -/
def abTitle (ab : Nat) : String :=
  match ab with
  | 0 => "A & B: no direct link"
  | 1 => "A → B"
  | 2 => "B → A"
  | 3 => "A ↔ B (mutualism)"
  | _ => "A/B pattern ?"

/-- The `externalSentenceFragment` (three-axis main.go); the `role` parameter is
accepted but unused, as in the source. -/
def externalSentenceFragment (_role : String) (p : Nat) : String :=
  match p with
  | 0 => "has no effect on A or B"
  | 1 => "influences A only"
  | 2 => "influences B only"
  | 3 => "influences both A and B"
  | _ => "?"

/-- The `externalSubtitle` (three-axis main.go): `fmt.Sprintf("C %s; D %s", ...)`. -/
def externalSubtitle (cPat dPat : Nat) : String :=
  "C " ++ externalSentenceFragment "C" cPat ++ "; D " ++ externalSentenceFragment "D" dPat

/-- Body of the innermost loop of `generateScenarios` (three-axis main.go)
for one combination of the `ab`, `cPat`, `dPat` codes.  The node list
reproduces the `nodesSet` map filtered through the stable order
`["C", "D", "A", "B"]`; edges are appended AB first, then C, then D. -/
def mkScenario (ab cPat dPat : Nat) : Scenario :=
  let abEdges : List Edge :=
    match ab with
    | 0 => []
    | 1 => [⟨"A", "B", false⟩]
    | 2 => [⟨"B", "A", false⟩]
    | 3 => [⟨"A", "B", true⟩]
    | _ => []
  let cEdges : List Edge :=
    if cPat ≠ 0 then
      (if cPat = 1 ∨ cPat = 3 then [⟨"C", "A", false⟩] else []) ++
      (if cPat = 2 ∨ cPat = 3 then [⟨"C", "B", false⟩] else [])
    else []
  let dEdges : List Edge :=
    if dPat ≠ 0 then
      (if dPat = 1 ∨ dPat = 3 then [⟨"D", "A", false⟩] else []) ++
      (if dPat = 2 ∨ dPat = 3 then [⟨"D", "B", false⟩] else [])
    else []
  { Title := abTitle ab
    Subtitle := externalSubtitle cPat dPat
    Nodes := (if cPat ≠ 0 then ["C"] else []) ++ (if dPat ≠ 0 then ["D"] else []) ++ ["A", "B"]
    Edges := abEdges ++ cEdges ++ dEdges }

/-- The `generateScenarios` (three-axis main.go): `for ab, cPat, dPat in 0..3`. -/
def generateScenarios : List Scenario :=
  (List.range 4).flatMap fun ab =>
    (List.range 4).flatMap fun cPat =>
      (List.range 4).map fun dPat =>
        mkScenario ab cPat dPat

end ThreeAxis

/-! ## CLI models (`runRender`, `runList`) -/

/-- Go's `fmt.Sprintf("%02d", n)` for a nonnegative integer: the decimal
digits, zero-padded on the left to a minimum width of two. -/
def format02d (n : Nat) : String :=
  if n < 10 then "0" ++ toString n else toString n

namespace FiveAxis

/-- The lines printed by `runList` (five-axis main.go): one
`fmt.Printf("%02d. ...\n", i+1, ...)` per scenario, with the subtitle after
an em dash when `--long` is set. -/
def listLines (longForm : Bool) : List String :=
  generateScenarios.enum.map fun p =>
    format02d (p.1 + 1) ++ ". " ++
      (if longForm then p.2.Title ++ " — " ++ p.2.Subtitle else p.2.Title)

end FiveAxis

namespace ThreeAxis

/-- The lines printed by `runList` (three-axis main.go): one
`fmt.Printf("%02d. ...\n", i+1, ...)` per scenario, with the subtitle after
an em dash when `--long` is set. -/
def listLines (longForm : Bool) : List String :=
  generateScenarios.enum.map fun p =>
    format02d (p.1 + 1) ++ ". " ++
      (if longForm then p.2.Title ++ " — " ++ p.2.Subtitle else p.2.Title)

end ThreeAxis

/-- Necessary condition for a listing line to be "prefixed with a 2-digit
index followed by a period and a space": its first four characters are
digit, digit, `'.'`, `' '`. -/
def twoDigitIndexLead (line : String) : Bool :=
  match line.data with
  | d1 :: d2 :: c3 :: c4 :: _ => d1.isDigit && d2.isDigit && c3 = '.' && c4 = ' '
  | _ => false

/-- The `runRender` (main.go) after flag parsing, as a function of the parsed
`--output` and `--columns` values.  The result pairs the returned
`error` with the list of files the invocation creates: on
`columns < 1` it returns the error `"columns must be at least 1"` before
`renderAllScenarios` runs, so no file is created; otherwise
`renderAllScenarios` creates exactly the file named by `--output`. -/
def runRender (output : String) (columns : Int) : Except String Unit × List String :=
  if columns < 1 then (.error "columns must be at least 1", [])
  else (.ok (), [output])

/-- Modelled from the spec: the body of `interactions.Render` is code of
this repository that is not under src/ — only its caller
`renderCmd.Execute` (src/cmd/interactions/render.go) and the repository's
migration notes are present.  The migration notes state that the
generated command passes the zero value for an omitted flag and that "the
current implementation treats 0 as 'use default'", the default column
count being 8 (main.go); `renderAllScenarios` then creates the output
file unconditionally.  The result is the returned error, the files
written, and the effective column count rendered with: a zero count
produces no validation error and the file is written. -/
def interactionsRender (output : String) (columns : Int) :
    Except String Unit × List String × Int :=
  let effectiveColumns := if columns = 0 then 8 else columns
  (.ok (), [output], effectiveColumns)

/-- The `renderCmd.Execute` (src/cmd/interactions/render.go): after flag
parsing it calls `interactions.Render(c.output, c.columns)` with no
validation of the column count; an omitted `--columns` flag passes the
flag's zero default. -/
def renderCmdExecute (output : String) (columns : Int) :
    Except String Unit × List String × Int :=
  interactionsRender output columns

/-! ## Go 64-bit integer arithmetic

The program's `int` is a 64-bit two's-complement integer: every arithmetic
operation wraps modulo `2^64` into `[-2^63, 2^63)`.
-/

/-- The two's-complement representative of `z` in `[-2^63, 2^63)`; the
numerals are `2^63` and `2^64`. -/
def wrap64 (z : Int) : Int :=
  (z + 9223372036854775808) % 18446744073709551616 - 9223372036854775808

/-- Go `int` addition: 64-bit wrapping. -/
def goAdd (a b : Int) : Int := wrap64 (a + b)

/-- Go `int` subtraction: 64-bit wrapping. -/
def goSub (a b : Int) : Int := wrap64 (a - b)

/-- Go `int` multiplication: 64-bit wrapping. -/
def goMul (a b : Int) : Int := wrap64 (a * b)

/-- Go `int` division: truncated toward zero, with the sole overflow case
`MinInt64 / -1` wrapping back to `MinInt64`. -/
def goDiv (a b : Int) : Int := wrap64 (Int.tdiv a b)

/-! ## Render layout and output (`renderAllScenarios`) -/

/-- The `panelW` constant of `renderAllScenarios` (main.go). -/
def panelW : Int := 360

/-- The `panelH` constant of `renderAllScenarios` (main.go). -/
def panelH : Int := 220

/-- The `margin` constant of `renderAllScenarios` (main.go). -/
def margin : Int := 20

/-- The `titleHeight` constant of `renderAllScenarios` (main.go). -/
def titleHeight : Int := 50

/-- The `legendHeight` constant of `renderAllScenarios` (main.go). -/
def legendHeight : Int := 120

/-- The row count computed by `renderAllScenarios` (main.go):
`rows := (len(scenarios) + cols - 1) / cols` over Go's wrapping 64-bit
`int` with truncated division. -/
def renderRows (n cols : Int) : Int := goDiv (goAdd (goAdd n cols) (-1)) cols

/-- The canvas dimensions `(imgW, imgH)` computed by `renderAllScenarios`
(main.go) for `n` scenarios and `cols` columns, over Go's wrapping 64-bit
`int`: `imgW := cols*panelW + (cols+1)*margin` and
`imgH := titleHeight + legendHeight + rows*panelH + (rows+2)*margin`. -/
def renderAllScenariosDims (n cols : Int) : Int × Int :=
  let rows := renderRows n cols
  (goAdd (goMul cols panelW) (goMul (goAdd cols 1) margin),
   goAdd (goAdd (goAdd titleHeight legendHeight) (goMul rows panelH))
     (goMul (goAdd rows 2) margin))

/-- Outcome of the output step of `renderAllScenarios` (main.go): either the
named file was written, or `log.Fatalf` terminated the process with a
message.  There is no other constructor: no retry or recovery is
representable. -/
inductive RenderOutcome where
  | written (filename : String)
  | fatal (msg : String)
deriving DecidableEq, Repr

/-- The output step of `renderAllScenarios` (main.go), as a function of
whether `os.Create` and `png.Encode` fail: a create failure hits
`log.Fatalf("failed to create output file: ...")` immediately (encoding is
never attempted), an encode failure hits
`log.Fatalf("failed to encode PNG: ...")` immediately. -/
def renderOutput (filename : String) (createRes : Except String Unit)
    (encodeRes : Except String Unit) : RenderOutcome :=
  match createRes with
  | .error e => .fatal ("failed to create output file: " ++ e)
  | .ok _ =>
    match encodeRes with
    | .error e => .fatal ("failed to encode PNG: " ++ e)
    | .ok _ => .written filename

/-! ## Line rasterization (`drawLine`, identical in both revisions) -/

/-- Go's `abs` helper (main.go) over wrapping 64-bit `int`: the negation
of `MinInt64` wraps back to `MinInt64`, so `abs(MinInt64)` is negative. -/
def absInt (a : Int) : Int := if a < 0 then wrap64 (-a) else a

/-- The mutable state of the Bresenham loop in `drawLine` (main.go):
current point `(x, y)` and accumulated error `e` (`err` in the source). -/
structure LineState where
  x : Int
  y : Int
  e : Int
deriving DecidableEq, Repr

/-- One iteration of the Bresenham loop body of `drawLine` (main.go) after
the plot and exit test: `e2 := 2*err`; if `e2 >= dy` step in x, if
`e2 <= dx` step in y (both tested against the same `e2`).  All arithmetic
is Go's wrapping 64-bit `int` arithmetic. -/
def bresStep (dx dy sx sy : Int) (s : LineState) : LineState :=
  let e2 := goMul 2 s.e
  let s1 := if e2 ≥ dy then { s with e := goAdd s.e dy, x := goAdd s.x sx } else s
  let s2 := if e2 ≤ dx then { s1 with e := goAdd s1.e dx, y := goAdd s1.y sy } else s1
  s2

/-- The Bresenham loop of `drawLine` (main.go), run with explicit fuel.
Each iteration records the plotted point (`img.Set(x0, y0, col)`), exits
when the current point equals `(x1, y1)`, and otherwise steps.  `none`
means the fuel was exhausted before the loop exited. -/
def drawLineLoop (dx dy sx sy x1 y1 : Int) : Nat → LineState → Option (List (Int × Int))
  | 0, _ => none
  | n + 1, s =>
    if s.x = x1 ∧ s.y = y1 then some [(s.x, s.y)]
    else
      match drawLineLoop dx dy sx sy x1 y1 n (bresStep dx dy sx sy s) with
      | none => none
      | some ps => some ((s.x, s.y) :: ps)

/-- The `drawLine` (main.go): computes `dx`, `sx`, `dy`, `sy`, `err` as in
the source over Go's wrapping 64-bit `int` and runs the loop; the fuel
`dx - dy + 1` is an upper bound shown sufficient for non-overflowing
inputs, so a `some` result is the list of plotted points of the
terminating Go loop, and a `none` for every fuel means the Go loop never
exits. -/
def drawLine (x0 y0 x1 y1 : Int) : Option (List (Int × Int)) :=
  let dx := absInt (goSub x1 x0)
  let sx : Int := if x0 > x1 then -1 else 1
  let dy := wrap64 (-absInt (goSub y1 y0))
  let sy : Int := if y0 > y1 then -1 else 1
  drawLineLoop dx dy sx sy x1 y1 ((dx - dy).toNat + 1) ⟨x0, y0, goAdd dx dy⟩

/-! ## Word wrapping (`drawWrappedLabel`, identical in both revisions) -/

/-- The `approxCharWidth` constant (main.go). -/
def approxCharWidth : Nat := 7

/-- The `lineHeight` constant (main.go). -/
def lineHeight : Nat := 14

/-- Go's `unicode.IsSpace` (the set `strings.Fields` and
`strings.TrimSpace` split on): the Latin-1 fast path plus the
`unicode.White_Space` table entries U+1680, U+2000-U+200A, U+2028, U+2029,
U+202F, U+205F and U+3000. -/
def isGoSpace (c : Char) : Bool :=
  c = ' ' || c = '\t' || c = '\n' || c = '\u000B' || c = '\u000C' || c = '\r' ||
  c = '\u0085' || c = '\u00A0' || c = '\u1680' ||
  c = '\u2000' || c = '\u2001' || c = '\u2002' || c = '\u2003' || c = '\u2004' ||
  c = '\u2005' || c = '\u2006' || c = '\u2007' || c = '\u2008' || c = '\u2009' ||
  c = '\u200A' || c = '\u2028' || c = '\u2029' || c = '\u202F' || c = '\u205F' ||
  c = '\u3000'

/-- Go's `strings.TrimSpace` on a character list: drop leading and trailing
whitespace. -/
def trimChars (l : List Char) : List Char :=
  ((l.dropWhile isGoSpace).reverse.dropWhile isGoSpace).reverse

/-- Worker for `strings.Fields`: `cur` is the current word accumulated in
reverse. -/
def fieldsAux (cur : List Char) : List Char → List (List Char)
  | [] => if cur = [] then [] else [cur.reverse]
  | c :: cs =>
    if isGoSpace c then
      if cur = [] then fieldsAux [] cs else cur.reverse :: fieldsAux [] cs
    else fieldsAux (c :: cur) cs

/-- Go's `strings.Fields` on a character list: the maximal runs of
non-whitespace characters. -/
def goFields (l : List Char) : List (List Char) := fieldsAux [] l

/-- Go's `len` of the string holding these characters: total UTF-8 byte
count. -/
def lineLen (l : List Char) : Nat := (l.map Char.utf8Size).sum

/-- The wrapping loop of `drawWrappedLabel` (main.go): `line` is the line
being accumulated (started at `words[0]`), and for each further word,
if `(len(line)+1+len(w))*approxCharWidth <= maxWidth` the word joins the
current line, else the line is emitted and the word starts a new one. -/
def wrapLines (maxWidth : Int) (line : List Char) : List (List Char) → List (List Char)
  | [] => [line]
  | w :: ws =>
    if ((lineLen line + 1 + lineLen w) * approxCharWidth : Int) ≤ maxWidth then
      wrapLines maxWidth (line ++ ' ' :: w) ws
    else
      line :: wrapLines maxWidth w ws

/-- The lines produced by `drawWrappedLabel` (main.go): the text is
TrimSpace'd, split into fields, and wrapped; the two early `return 0`
paths produce no lines. -/
def drawWrappedLabelLines (text : List Char) (maxWidth : Int) : List (List Char) :=
  let t := trimChars text
  if t = [] then []
  else
    match goFields t with
    | [] => []
    | w :: ws => wrapLines maxWidth w ws

/-- The height returned by `drawWrappedLabel` (main.go):
`len(lines) * lineHeight`, with the early exits returning `0`. -/
def drawWrappedLabelHeight (text : List Char) (maxWidth : Int) : Nat :=
  (drawWrappedLabelLines text maxWidth).length * lineHeight

/-! ## Panel layout of the three-axis revision (`drawScenario`) -/

namespace ThreeAxis

/-- The `incoming` map of `drawScenario` (three-axis main.go): each edge
increments `incoming[e.To]`, and a bidirectional edge also increments
`incoming[e.From]`. -/
def incomingCount (s : Scenario) (n : String) : Nat :=
  (s.Edges.filter fun e => e.To = n).length +
  (s.Edges.filter fun e => e.Bidirectional ∧ e.From = n).length

/-- The `early` list of `drawScenario` before the fallback: nodes with no
incoming arrows, in node-list order. -/
def early (s : Scenario) : List String :=
  s.Nodes.filter fun n => incomingCount s n == 0

/-- The `late` list of `drawScenario` before the fallback: nodes with at
least one incoming arrow, in node-list order. -/
def late (s : Scenario) : List String :=
  s.Nodes.filter fun n => ! (incomingCount s n == 0)

/-- The `early` list after the fallback of `drawScenario`: when no node is
free of incoming arrows, everything goes to the upper row. -/
def earlyFinal (s : Scenario) : List String :=
  if early s = [] then s.Nodes else early s

/-- The `late` list after the fallback of `drawScenario`. -/
def lateFinal (s : Scenario) : List String :=
  if early s = [] then [] else late s

/-- The assignment `topY := rect.Min.Y + 90 + extraTextHeight` (three-axis `drawScenario`):
the y coordinate of the upper ("earlier") row. -/
def topY (rectMinY extra : Int) : Int := rectMinY + 90 + extra

/-- The assignment `botY := rect.Min.Y + 170 + extraTextHeight` (three-axis
`drawScenario`): the y coordinate of the lower ("later") row. -/
def botY (rectMinY extra : Int) : Int := rectMinY + 170 + extra

/-- The y components of the `positions` map built by `drawScenario`: every
early node is placed at `topY`, every late node at `botY` (the x spacing
differs with the row population but the y never does). -/
def positionsY (s : Scenario) (rectMinY extra : Int) : List (String × Int) :=
  ((earlyFinal s).map fun n => (n, topY rectMinY extra)) ++
  ((lateFinal s).map fun n => (n, botY rectMinY extra))

/-- The y coordinate `drawScenario` assigns to node `n`; the `getD`
default mirrors the mid-panel fallback for a node missing from
`positions` (unreachable for nodes of the scenario). -/
def nodeY (s : Scenario) (rectMinY extra : Int) (n : String) : Int :=
  ((positionsY s rectMinY extra).lookup n).getD
    ((topY rectMinY extra + botY rectMinY extra) / 2)

/-- The index tuples enumerated by the three nested loops of
`generateScenarios` (three-axis main.go), in iteration order. -/
def axisTriples : List (Nat × Nat × Nat) :=
  (List.range 4).flatMap fun ab =>
    (List.range 4).flatMap fun cPat =>
      (List.range 4).map fun dPat => (ab, cPat, dPat)

/-- Rank of an axis triple in iteration order. -/
def tripleKey (q : Nat × Nat × Nat) : Nat := (q.1 * 4 + q.2.1) * 4 + q.2.2

end ThreeAxis

namespace FiveAxis

/-- The index tuples enumerated by the five nested loops of
`generateScenarios` (five-axis main.go), in iteration order. -/
def axisQuints : List (Nat × Nat × Nat × Nat × Nat) :=
  (List.range 4).flatMap fun ab =>
    (List.range 4).flatMap fun cPat =>
      (List.range 4).flatMap fun dPat =>
        (List.range 3).flatMap fun timePat =>
          (List.range 4).map fun typePat => (ab, cPat, dPat, timePat, typePat)

/-- Rank of an axis quintuple in iteration order. -/
def quintKey (q : Nat × Nat × Nat × Nat × Nat) : Nat :=
  (((q.1 * 4 + q.2.1) * 4 + q.2.2.1) * 3 + q.2.2.2.1) * 4 + q.2.2.2.2

/-- The scenario of one axis quintuple, going through the pattern lists. -/
def scenarioOfQuint (q : Nat × Nat × Nat × Nat × Nat) : Scenario :=
  mkScenario (abPatterns.getD q.1 "") (cPatterns.getD q.2.1 "")
    (dPatterns.getD q.2.2.1 "") (timePatterns.getD q.2.2.2.1 "")
    (typePatterns.getD q.2.2.2.2 "")

/-- The title of `mkScenario` as a function of the title-relevant axes. -/
def titleOf (abPat timePat typePat : String) : String :=
  "AB: " ++ abPat ++ ", Time: " ++ timePat ++ ", Type: " ++ typePat

/-- The subtitle of `mkScenario` as a function of the C and D axes. -/
def subtitleOf (cPat dPat : String) : String :=
  "C: " ++ cPat ++ ", D: " ++ dPat

end FiveAxis

namespace ThreeAxis

/-- The scenario of one axis triple. -/
def scenarioOfTriple (q : Nat × Nat × Nat) : Scenario :=
  mkScenario q.1 q.2.1 q.2.2

end ThreeAxis

/-!
## Theorems

Everything from here on is a proof about the definitions above.
-/

set_option maxRecDepth 200000

/-- If ranking the elements of `l` by `key` enumerates `0, 1, 2, ...`, then
every element sits at the index its key names. -/
theorem getElem_of_map_key {α : Type} (l : List α) (key : α → Nat)
    (h : l.map key = List.range l.length) :
    ∀ q ∈ l, l[key q]? = some q := by
  intro q hq
  obtain ⟨i, hi, rfl⟩ := List.getElem_of_mem hq
  have h1 : (l.map key)[i]? = some (key l[i]) := by
    simp [List.getElem?_eq_getElem, hi]
  rw [h] at h1
  have h2 : (List.range l.length)[i]? = some i := by
    simp [hi]
  have hk : key l[i] = i := by
    rw [h1] at h2
    exact Option.some.inj h2
  rw [hk]
  simp [List.getElem?_eq_getElem, hi]

namespace ThreeAxis

theorem axisTriples_map_key : axisTriples.map tripleKey = List.range axisTriples.length := by
  rfl

theorem mem_axisTriples (q : Nat × Nat × Nat) :
    q ∈ axisTriples ↔ q.1 < 4 ∧ q.2.1 < 4 ∧ q.2.2 < 4 := by
  obtain ⟨a, c, d⟩ := q
  simp only [axisTriples, List.mem_flatMap, List.mem_map, List.mem_range]
  constructor
  · rintro ⟨x, hx, y, hy, z, hz, h⟩
    injection h with h1 h23
    injection h23 with h2 h3
    subst h1; subst h2; subst h3
    exact ⟨hx, hy, hz⟩
  · rintro ⟨ha, hc, hd⟩
    exact ⟨a, ha, c, hc, d, hd, rfl⟩

theorem axisTriples_nodup : axisTriples.Nodup :=
  List.Nodup.of_map tripleKey (by rw [axisTriples_map_key]; exact List.nodup_range _)

theorem generateScenarios3_eq_map :
    generateScenarios = axisTriples.map scenarioOfTriple := by
  rfl

theorem abTitle_inj :
    ∀ a ∈ List.range 4, ∀ a' ∈ List.range 4, abTitle a = abTitle a' → a = a' := by
  decide

theorem externalSubtitle_inj :
    ∀ c ∈ List.range 4, ∀ d ∈ List.range 4, ∀ c' ∈ List.range 4, ∀ d' ∈ List.range 4,
      externalSubtitle c d = externalSubtitle c' d' → c = c' ∧ d = d' := by
  decide

theorem scenarioOfTriple_injOn :
    ∀ q ∈ axisTriples, ∀ q' ∈ axisTriples,
      scenarioOfTriple q = scenarioOfTriple q' → q = q' := by
  intro q hq q' hq' h
  rw [mem_axisTriples] at hq hq'
  obtain ⟨a, c, d⟩ := q
  obtain ⟨a', c', d'⟩ := q'
  obtain ⟨ha, hc, hd⟩ := hq
  obtain ⟨ha', hc', hd'⟩ := hq'
  have hT : abTitle a = abTitle a' := congrArg Scenario.Title h
  have hS : externalSubtitle c d = externalSubtitle c' d' := congrArg Scenario.Subtitle h
  have ea : a = a' :=
    abTitle_inj a (List.mem_range.2 ha) a' (List.mem_range.2 ha') hT
  have ecd : c = c' ∧ d = d' :=
    externalSubtitle_inj c (List.mem_range.2 hc) d (List.mem_range.2 hd)
      c' (List.mem_range.2 hc') d' (List.mem_range.2 hd') hS
  simp [ea, ecd.1, ecd.2]

theorem generateScenarios3_nodup : generateScenarios.Nodup := by
  rw [generateScenarios3_eq_map]
  exact axisTriples_nodup.map_on scenarioOfTriple_injOn

end ThreeAxis

namespace FiveAxis

theorem axisQuints_map_key : axisQuints.map quintKey = List.range axisQuints.length := by
  rfl

theorem mem_axisQuints (q : Nat × Nat × Nat × Nat × Nat) :
    q ∈ axisQuints ↔ q.1 < 4 ∧ q.2.1 < 4 ∧ q.2.2.1 < 4 ∧ q.2.2.2.1 < 3 ∧ q.2.2.2.2 < 4 := by
  obtain ⟨a, c, d, t, ty⟩ := q
  simp only [axisQuints, List.mem_flatMap, List.mem_map, List.mem_range]
  constructor
  · rintro ⟨x1, h1, x2, h2, x3, h3, x4, h4, x5, h5, h⟩
    injection h with e1 r1
    injection r1 with e2 r2
    injection r2 with e3 r3
    injection r3 with e4 e5
    subst e1; subst e2; subst e3; subst e4; subst e5
    exact ⟨h1, h2, h3, h4, h5⟩
  · rintro ⟨ha, hc, hd, ht, hty⟩
    exact ⟨a, ha, c, hc, d, hd, t, ht, ty, hty, rfl⟩

theorem axisQuints_nodup : axisQuints.Nodup :=
  List.Nodup.of_map quintKey (by rw [axisQuints_map_key]; exact List.nodup_range _)

theorem generateScenarios5_eq_map :
    generateScenarios = axisQuints.map scenarioOfQuint := by
  rfl

theorem titleOf_inj :
    ∀ a ∈ List.range 4, ∀ t ∈ List.range 3, ∀ ty ∈ List.range 4,
      ∀ a' ∈ List.range 4, ∀ t' ∈ List.range 3, ∀ ty' ∈ List.range 4,
      titleOf (abPatterns.getD a "") (timePatterns.getD t "") (typePatterns.getD ty "") =
        titleOf (abPatterns.getD a' "") (timePatterns.getD t' "") (typePatterns.getD ty' "") →
      a = a' ∧ t = t' ∧ ty = ty' := by
  decide

theorem subtitleOf_inj :
    ∀ c ∈ List.range 4, ∀ d ∈ List.range 4, ∀ c' ∈ List.range 4, ∀ d' ∈ List.range 4,
      subtitleOf (cPatterns.getD c "") (dPatterns.getD d "") =
        subtitleOf (cPatterns.getD c' "") (dPatterns.getD d' "") →
      c = c' ∧ d = d' := by
  decide

theorem scenarioOfQuint_injOn :
    ∀ q ∈ axisQuints, ∀ q' ∈ axisQuints,
      scenarioOfQuint q = scenarioOfQuint q' → q = q' := by
  intro q hq q' hq' h
  rw [mem_axisQuints] at hq hq'
  obtain ⟨a, c, d, t, ty⟩ := q
  obtain ⟨a', c', d', t', ty'⟩ := q'
  obtain ⟨ha, hc, hd, ht, hty⟩ := hq
  obtain ⟨ha', hc', hd', ht', hty'⟩ := hq'
  have hT : titleOf (abPatterns.getD a "") (timePatterns.getD t "") (typePatterns.getD ty "") =
      titleOf (abPatterns.getD a' "") (timePatterns.getD t' "") (typePatterns.getD ty' "") :=
    congrArg Scenario.Title h
  have hS : subtitleOf (cPatterns.getD c "") (dPatterns.getD d "") =
      subtitleOf (cPatterns.getD c' "") (dPatterns.getD d' "") :=
    congrArg Scenario.Subtitle h
  have eT := titleOf_inj a (List.mem_range.2 ha) t (List.mem_range.2 ht) ty (List.mem_range.2 hty)
    a' (List.mem_range.2 ha') t' (List.mem_range.2 ht') ty' (List.mem_range.2 hty') hT
  have eS := subtitleOf_inj c (List.mem_range.2 hc) d (List.mem_range.2 hd)
    c' (List.mem_range.2 hc') d' (List.mem_range.2 hd') hS
  simp [eT.1, eT.2.1, eT.2.2, eS.1, eS.2]

theorem generateScenarios5_nodup : generateScenarios.Nodup := by
  rw [generateScenarios5_eq_map]
  exact axisQuints_nodup.map_on scenarioOfQuint_injOn

end FiveAxis

/-- C1: `generateScenarios` returns exactly 64 scenarios in the three-axis
revision (4 AB patterns x 4 C patterns x 4 D patterns) and exactly 768 in
the five-axis revision (4 x 4 x 4 x 3 timing x 4 type patterns), and in
both revisions the returned scenario records are pairwise distinct. -/
theorem C1_scenario_counts_and_no_duplicates :
    ThreeAxis.generateScenarios.length = 64 ∧
    FiveAxis.generateScenarios.length = 768 ∧
    ThreeAxis.generateScenarios.Nodup ∧
    FiveAxis.generateScenarios.Nodup :=
  ⟨by rfl, by rfl, ThreeAxis.generateScenarios3_nodup, FiveAxis.generateScenarios5_nodup⟩

/-- C2: for every 0-based index, the scenario at that index of
`generateScenarios` is the record of the corresponding axis combination in
nested-loop iteration order (outermost AB, then C, then D, and in the
five-axis revision then timing then type), and the Title and Subtitle are
pure functions of exactly the title-relevant respectively
subtitle-relevant axis values. -/
theorem C2_iteration_order_and_pure_titles :
    (∀ a ∈ List.range 4, ∀ c ∈ List.range 4, ∀ d ∈ List.range 4,
      ThreeAxis.generateScenarios[(a * 4 + c) * 4 + d]? =
        some (ThreeAxis.mkScenario a c d)) ∧
    (∀ a ∈ List.range 4, ∀ c ∈ List.range 4, ∀ d ∈ List.range 4,
      ∀ t ∈ List.range 3, ∀ ty ∈ List.range 4,
      FiveAxis.generateScenarios[(((a * 4 + c) * 4 + d) * 3 + t) * 4 + ty]? =
        some (FiveAxis.mkScenario (FiveAxis.abPatterns.getD a "")
          (FiveAxis.cPatterns.getD c "") (FiveAxis.dPatterns.getD d "")
          (FiveAxis.timePatterns.getD t "") (FiveAxis.typePatterns.getD ty ""))) ∧
    (∀ a c d : Nat, (ThreeAxis.mkScenario a c d).Title = ThreeAxis.abTitle a ∧
      (ThreeAxis.mkScenario a c d).Subtitle = ThreeAxis.externalSubtitle c d) ∧
    (∀ ab c d t ty : String,
      (FiveAxis.mkScenario ab c d t ty).Title = FiveAxis.titleOf ab t ty ∧
      (FiveAxis.mkScenario ab c d t ty).Subtitle = FiveAxis.subtitleOf c d) := by
  refine ⟨?_, ?_, fun a c d => ⟨rfl, rfl⟩, fun ab c d t ty => ⟨rfl, rfl⟩⟩
  · intro a ha c hc d hd
    have hq : ((a, c, d) : Nat × Nat × Nat) ∈ ThreeAxis.axisTriples :=
      (ThreeAxis.mem_axisTriples _).2
        ⟨List.mem_range.1 ha, List.mem_range.1 hc, List.mem_range.1 hd⟩
    have h := getElem_of_map_key ThreeAxis.axisTriples ThreeAxis.tripleKey
      ThreeAxis.axisTriples_map_key _ hq
    rw [ThreeAxis.generateScenarios3_eq_map, List.getElem?_map]
    have hk : ThreeAxis.tripleKey (a, c, d) = (a * 4 + c) * 4 + d := rfl
    rw [hk] at h
    rw [h]
    rfl
  · intro a ha c hc d hd t ht ty hty
    have hq : ((a, c, d, t, ty) : Nat × Nat × Nat × Nat × Nat) ∈ FiveAxis.axisQuints :=
      (FiveAxis.mem_axisQuints _).2
        ⟨List.mem_range.1 ha, List.mem_range.1 hc, List.mem_range.1 hd,
         List.mem_range.1 ht, List.mem_range.1 hty⟩
    have h := getElem_of_map_key FiveAxis.axisQuints FiveAxis.quintKey
      FiveAxis.axisQuints_map_key _ hq
    rw [FiveAxis.generateScenarios5_eq_map, List.getElem?_map]
    have hk : FiveAxis.quintKey (a, c, d, t, ty) = (((a * 4 + c) * 4 + d) * 3 + t) * 4 + ty := rfl
    rw [hk] at h
    rw [h]
    rfl

/-- Witness for C2 at a concrete axis combination: scenario 7 of the
three-axis revision is the record for AB pattern 0, C pattern 1, D pattern
3, and scenario 500 of the five-axis revision is the record for axes
(2, 2, 1, 2, 0). -/
theorem C2_iteration_order_witness :
    ThreeAxis.generateScenarios[(0 * 4 + 1) * 4 + 3]? =
      some (ThreeAxis.mkScenario 0 1 3) ∧
    FiveAxis.generateScenarios[(((2 * 4 + 2) * 4 + 1) * 3 + 2) * 4 + 0]? =
      some (FiveAxis.mkScenario (FiveAxis.abPatterns.getD 2 "")
        (FiveAxis.cPatterns.getD 2 "") (FiveAxis.dPatterns.getD 1 "")
        (FiveAxis.timePatterns.getD 2 "") (FiveAxis.typePatterns.getD 0 "")) :=
  ⟨C2_iteration_order_and_pure_titles.1 0 (by decide) 1 (by decide) 3 (by decide),
   C2_iteration_order_and_pure_titles.2.1 2 (by decide) 2 (by decide) 1 (by decide)
     2 (by decide) 0 (by decide)⟩

/-- C3 counterexample: in the go-subcommand revision, `render --columns 0`
(the zero value is also what an omitted flag passes) is not rejected:
`renderCmd.Execute` performs no validation and `interactions.Render`
treats 0 as "use default", so the invocation returns no error, renders
with the default 8 columns, and writes the output file — refuting
"rejected with a user-facing error, and no output file is created". -/
theorem C3_cmd_zero_columns_counterexample :
    renderCmdExecute "interactions.png" 0 = (.ok (), ["interactions.png"], 8) := rfl

/-- C3 amended: in both main.go revisions, `runRender` rejects a zero or
negative `--columns` value with the user-facing error "columns must be at
least 1" before rendering, so no file is created; in the go-subcommand
revision `renderCmd.Execute` performs no such check and a zero column
count renders with the default of 8 columns, writing the output file. -/
theorem C3_columns_validation_by_revision :
    (∀ (output : String) (columns : Int), columns < 1 →
      runRender output columns = (.error "columns must be at least 1", [])) ∧
    (∀ output : String, renderCmdExecute output 0 = (.ok (), [output], 8)) := by
  constructor
  · intro output columns h
    simp [runRender, h]
  · intro output
    rfl

/-- Witness for amended C3: `--columns 0` on the main.go revisions is
rejected without creating a file. -/
theorem C3_columns_validation_witness :
    runRender "interactions.png" 0 = (.error "columns must be at least 1", []) :=
  C3_columns_validation_by_revision.1 "interactions.png" 0 (by decide)

/-- Values already in the 64-bit two's-complement range are fixed by
`wrap64`. -/
theorem wrap64_eq_self (z : Int) (h1 : -9223372036854775808 ≤ z)
    (h2 : z < 9223372036854775808) : wrap64 z = z := by
  rw [wrap64, Int.emod_eq_of_lt (by omega) (by omega)]
  omega

/-- C5 counterexample: Go's 64-bit arithmetic wraps at CLI-reachable
column counts: with 64 scenarios and `--columns 48544063351867242` (which
passes the `columns >= 1` guard) the program computes a canvas width of
364 pixels, not `C*360 + (C+1)*20`. -/
theorem C5_wrap_counterexample :
    (renderAllScenariosDims 64 48544063351867242).1 = 364 ∧
    (364 : Int) ≠ 48544063351867242 * 360 + (48544063351867242 + 1) * 20 :=
  ⟨by decide, by decide⟩

/-- C5 amended: for every scenario count `n ≥ 0` and column count
`cols ≥ 1` both at most `2^31` (no 64-bit wrap occurs there; real
invocations use 64 or 768 scenarios and single-digit columns), the canvas
is exactly `cols*360 + (cols+1)*20` pixels wide and
`50 + 120 + rows*220 + (rows+2)*20` pixels high with
`rows = (n + cols - 1) / cols`, and that row count is the ceiling of
`n / cols`: the least `r ≥ 0` with `n ≤ r * cols`.  Beyond that range the
program's wrapping arithmetic diverges from the formula. -/
theorem C5_render_dimensions_in_range (n cols : Int) (hn0 : 0 ≤ n)
    (hc : 1 ≤ cols) (hn : n ≤ 2147483648) (hcb : cols ≤ 2147483648) :
    renderAllScenariosDims n cols =
      (cols * 360 + (cols + 1) * 20,
       50 + 120 + ((n + cols - 1) / cols) * 220 +
         ((n + cols - 1) / cols + 2) * 20) ∧
    n ≤ ((n + cols - 1) / cols) * cols ∧
    (∀ r : Int, 0 ≤ r → n ≤ r * cols → (n + cols - 1) / cols ≤ r) := by
  have hq0 : 0 ≤ (n + cols - 1) / cols := Int.ediv_nonneg (by omega) (by omega)
  have hqb : (n + cols - 1) / cols ≤ n + cols - 1 := Int.ediv_le_self _ (by omega)
  have hdm := Int.ediv_add_emod (n + cols - 1) cols
  have hm0 : 0 ≤ (n + cols - 1) % cols := Int.emod_nonneg _ (by omega)
  have hmlt : (n + cols - 1) % cols < cols := Int.emod_lt_of_pos _ (by omega)
  have h1 : goAdd n cols = n + cols := by
    rw [goAdd]
    exact wrap64_eq_self _ (by omega) (by omega)
  have h2 : goAdd (n + cols) (-1) = n + cols - 1 := by
    rw [goAdd, show n + cols + -1 = n + cols - 1 by ring]
    exact wrap64_eq_self _ (by omega) (by omega)
  have h3 : goDiv (n + cols - 1) cols = (n + cols - 1) / cols := by
    rw [goDiv, Int.tdiv_eq_ediv (by omega) (by omega)]
    exact wrap64_eq_self _ (by omega) (by omega)
  have hrows : renderRows n cols = (n + cols - 1) / cols := by
    rw [renderRows, h1, h2, h3]
  refine ⟨?_, ?_, ?_⟩
  · have hw1 : goMul cols panelW = cols * 360 := by
      rw [goMul, panelW]
      exact wrap64_eq_self _ (by omega) (by omega)
    have hw2 : goAdd cols 1 = cols + 1 := by
      rw [goAdd]
      exact wrap64_eq_self _ (by omega) (by omega)
    have hw3 : goMul (cols + 1) margin = (cols + 1) * 20 := by
      rw [goMul, margin]
      exact wrap64_eq_self _ (by omega) (by omega)
    have hw4 : goAdd (cols * 360) ((cols + 1) * 20) = cols * 360 + (cols + 1) * 20 := by
      rw [goAdd]
      exact wrap64_eq_self _ (by omega) (by omega)
    have hh0 : goAdd titleHeight legendHeight = (170 : Int) := by decide
    have hh1 : goMul ((n + cols - 1) / cols) panelH = ((n + cols - 1) / cols) * 220 := by
      rw [goMul, panelH]
      exact wrap64_eq_self _ (by omega) (by omega)
    have hh2 : goAdd (170 : Int) (((n + cols - 1) / cols) * 220) =
        170 + ((n + cols - 1) / cols) * 220 := by
      rw [goAdd]
      exact wrap64_eq_self _ (by omega) (by omega)
    have hh3 : goAdd ((n + cols - 1) / cols) 2 = (n + cols - 1) / cols + 2 := by
      rw [goAdd]
      exact wrap64_eq_self _ (by omega) (by omega)
    have hh4 : goMul ((n + cols - 1) / cols + 2) margin =
        ((n + cols - 1) / cols + 2) * 20 := by
      rw [goMul, margin]
      exact wrap64_eq_self _ (by omega) (by omega)
    have hh5 : goAdd (170 + ((n + cols - 1) / cols) * 220)
        (((n + cols - 1) / cols + 2) * 20) =
        170 + ((n + cols - 1) / cols) * 220 + ((n + cols - 1) / cols + 2) * 20 := by
      rw [goAdd]
      exact wrap64_eq_self _ (by omega) (by omega)
    simp only [renderAllScenariosDims, hrows]
    rw [hw1, hw2, hw3, hw4, hh0, hh1, hh2, hh3, hh4, hh5]
    refine Prod.ext rfl ?_
    show 170 + ((n + cols - 1) / cols) * 220 + ((n + cols - 1) / cols + 2) * 20 =
      50 + 120 + ((n + cols - 1) / cols) * 220 + ((n + cols - 1) / cols + 2) * 20
    ring
  · obtain ⟨X, hX⟩ : ∃ X, cols * ((n + cols - 1) / cols) = X := ⟨_, rfl⟩
    rw [hX] at hdm
    rw [Int.mul_comm, hX]
    omega
  · intro r hr0 hr
    have hlt : n + cols - 1 < (r + 1) * cols := by nlinarith
    have := (Int.ediv_lt_iff_lt_mul (by omega : (0 : Int) < cols)).2
      (by rw [Int.mul_comm (r + 1) cols] at hlt ⊢; exact hlt)
    omega

/-- Witness for amended C5: the three-axis render defaults, 64 scenarios
in 8 columns. -/
theorem C5_render_dimensions_witness :
    renderAllScenariosDims 64 8 =
      (8 * 360 + (8 + 1) * 20,
       50 + 120 + ((64 + 8 - 1) / 8) * 220 + ((64 + 8 - 1) / 8 + 2) * 20) ∧
    (64 : Int) ≤ ((64 + 8 - 1) / 8) * 8 :=
  ⟨(C5_render_dimensions_in_range 64 8 (by decide) (by decide) (by decide) (by decide)).1,
   (C5_render_dimensions_in_range 64 8 (by decide) (by decide) (by decide) (by decide)).2.1⟩

/-- C7: during render, a failure of `os.Create` or of `png.Encode`
produces the fatal outcome immediately: the run terminates with a
`log.Fatalf` message, and the outcome type offers no retry or recovery
continuation. -/
theorem C7_output_errors_are_fatal (filename : String)
    (createRes encodeRes : Except String Unit)
    (h : (∃ m, createRes = .error m) ∨ (createRes = .ok () ∧ ∃ m, encodeRes = .error m)) :
    ∃ msg, renderOutput filename createRes encodeRes = .fatal msg := by
  rcases h with ⟨m, rfl⟩ | ⟨hc, m, rfl⟩
  · exact ⟨"failed to create output file: " ++ m, rfl⟩
  · subst hc
    exact ⟨"failed to encode PNG: " ++ m, rfl⟩

/-- Witness for C7: a concrete create failure is fatal. -/
theorem C7_output_errors_are_fatal_witness :
    ∃ msg, renderOutput "interactions.png" (.error "disk full") (.ok ()) = .fatal msg :=
  C7_output_errors_are_fatal "interactions.png" (.error "disk full") (.ok ())
    (Or.inl ⟨"disk full", rfl⟩)

/-- C8: every generated scenario contains nodes A and B; node C
(respectively D) is present exactly when the C (respectively D) influence
pattern is not the "none" pattern (code 0 in the three-axis revision); and
both endpoints of every edge are nodes of the scenario. -/
theorem C8_node_presence_and_edge_closure :
    (∀ a ∈ List.range 4, ∀ c ∈ List.range 4, ∀ d ∈ List.range 4,
      "A" ∈ (ThreeAxis.mkScenario a c d).Nodes ∧
      "B" ∈ (ThreeAxis.mkScenario a c d).Nodes ∧
      ("C" ∈ (ThreeAxis.mkScenario a c d).Nodes ↔ c ≠ 0) ∧
      ("D" ∈ (ThreeAxis.mkScenario a c d).Nodes ↔ d ≠ 0) ∧
      (∀ e ∈ (ThreeAxis.mkScenario a c d).Edges,
        e.From ∈ (ThreeAxis.mkScenario a c d).Nodes ∧
        e.To ∈ (ThreeAxis.mkScenario a c d).Nodes)) ∧
    (∀ ab ∈ FiveAxis.abPatterns, ∀ c ∈ FiveAxis.cPatterns, ∀ d ∈ FiveAxis.dPatterns,
      ∀ t ∈ FiveAxis.timePatterns, ∀ ty ∈ FiveAxis.typePatterns,
      "A" ∈ FiveAxis.nodeNames (FiveAxis.mkScenario ab c d t ty) ∧
      "B" ∈ FiveAxis.nodeNames (FiveAxis.mkScenario ab c d t ty) ∧
      ("C" ∈ FiveAxis.nodeNames (FiveAxis.mkScenario ab c d t ty) ↔ c ≠ "none") ∧
      ("D" ∈ FiveAxis.nodeNames (FiveAxis.mkScenario ab c d t ty) ↔ d ≠ "none") ∧
      (∀ e ∈ (FiveAxis.mkScenario ab c d t ty).Edges,
        e.From ∈ FiveAxis.nodeNames (FiveAxis.mkScenario ab c d t ty) ∧
        e.To ∈ FiveAxis.nodeNames (FiveAxis.mkScenario ab c d t ty))) :=
  ⟨by decide, by decide⟩

/-- Witness for C8: the three-axis scenario with AB pattern 3, C pattern 1
and D pattern 0, and the five-axis scenario with mutualism and C → both. -/
theorem C8_node_presence_witness :
    ("C" ∈ (ThreeAxis.mkScenario 3 1 0).Nodes ↔ (1 : Nat) ≠ 0) ∧
    ("C" ∈ FiveAxis.nodeNames
        (FiveAxis.mkScenario "A<->B" "C->A,B" "none" "A,B same" "A,B events") ↔
      ("C->A,B" : String) ≠ "none") :=
  ⟨(C8_node_presence_and_edge_closure.1 3 (by decide) 1 (by decide) 0 (by decide)).2.2.1,
   (C8_node_presence_and_edge_closure.2 "A<->B" (by decide) "C->A,B" (by decide)
     "none" (by decide) "A,B same" (by decide) "A,B events" (by decide)).2.2.1⟩

/-- C4 counterexample: in the five-axis revision, the 100th line of
`list --long` is `"100. AB: none, Time: A,B same, Type: A,B processes — C:
C->B, D: none"`, whose prefix is a THREE-digit index: its first four
characters are not digit, digit, period, space, refuting "every line is
prefixed with a 2-digit representation of the index followed by a period
and a space". -/
theorem C4_two_digit_counterexample :
    (FiveAxis.listLines true).getD 99 "" =
      "100. AB: none, Time: A,B same, Type: A,B processes — C: C->B, D: none" ∧
    twoDigitIndexLead ((FiveAxis.listLines true).getD 99 "") = false :=
  ⟨by decide, by decide⟩

/-- C4 amended: `list --long` prints exactly one line per scenario in both
revisions, and the i-th line (1-based) is prefixed by i formatted as a
zero-padded decimal of minimum width two, followed by a period and a space
(exactly two digits whenever i ≤ 99, hence for the whole three-axis
revision). -/
theorem C4_list_line_count_and_index_lead (longForm : Bool) :
    (ThreeAxis.listLines longForm).length = ThreeAxis.generateScenarios.length ∧
    (FiveAxis.listLines longForm).length = FiveAxis.generateScenarios.length ∧
    (∀ (i : Nat) (l : String), (ThreeAxis.listLines longForm)[i]? = some l →
      ∃ rest, l = format02d (i + 1) ++ ". " ++ rest) ∧
    (∀ (i : Nat) (l : String), (FiveAxis.listLines longForm)[i]? = some l →
      ∃ rest, l = format02d (i + 1) ++ ". " ++ rest) := by
  refine ⟨?_, ?_, ?_, ?_⟩
  · simp [ThreeAxis.listLines]
  · simp [FiveAxis.listLines]
  · intro i l h
    rw [ThreeAxis.listLines, List.getElem?_map, List.getElem?_enum] at h
    obtain ⟨p, hp, rfl⟩ := Option.map_eq_some'.1 h
    obtain ⟨s, hs, rfl⟩ := Option.map_eq_some'.1 hp
    exact ⟨_, rfl⟩
  · intro i l h
    rw [FiveAxis.listLines, List.getElem?_map, List.getElem?_enum] at h
    obtain ⟨p, hp, rfl⟩ := Option.map_eq_some'.1 h
    obtain ⟨s, hs, rfl⟩ := Option.map_eq_some'.1 hp
    exact ⟨_, rfl⟩

/-- Witness for amended C4: the first line of the three-axis `list --long`
output carries the prefix `format02d 1 ++ ". "` = `"01. "`. -/
theorem C4_list_index_lead_witness :
    ∃ rest,
      ("01. A & B: no direct link — C has no effect on A or B; D has no effect on A or B" : String) =
        format02d (0 + 1) ++ ". " ++ rest :=
  (C4_list_line_count_and_index_lead true).2.2.1 0
    "01. A & B: no direct link — C has no effect on A or B; D has no effect on A or B"
    (by decide)

namespace ThreeAxis

theorem lookup_map_pair_of_mem (l : List String) (v : Int) (n : String) (h : n ∈ l) :
    (l.map fun m => (m, v)).lookup n = some v := by
  induction l with
  | nil => cases h
  | cons m ms ih =>
    rcases List.mem_cons.1 h with rfl | hms
    · simp [List.lookup]
    · by_cases he : n = m
      · simp [List.lookup, he]
      · have hb : (n == m) = false := beq_eq_false_iff_ne.2 he
        simp only [List.map_cons, List.lookup, hb]
        exact ih hms

theorem lookup_map_pair_of_not_mem (l : List String) (v : Int) (n : String) (h : n ∉ l) :
    (l.map fun m => (m, v)).lookup n = none := by
  induction l with
  | nil => rfl
  | cons m ms ih =>
    have he : ¬ n = m := fun e => h (e ▸ List.mem_cons_self m ms)
    have hms : n ∉ ms := fun hm => h (List.mem_cons_of_mem m hm)
    have hb : (n == m) = false := beq_eq_false_iff_ne.2 he
    simp only [List.map_cons, List.lookup, hb]
    exact ih hms

theorem lookup_append_some {l1 l2 : List (String × Int)} {n : String} {v : Int}
    (h : l1.lookup n = some v) : (l1 ++ l2).lookup n = some v := by
  induction l1 with
  | nil => cases h
  | cons p ps ih =>
    obtain ⟨k, w⟩ := p
    by_cases he : n = k
    · simp only [List.lookup, he] at h ⊢
      simpa using h
    · simp only [List.cons_append, List.lookup, beq_eq_false_iff_ne.2 he] at h ⊢
      exact ih h

theorem lookup_append_none {l1 l2 : List (String × Int)} {n : String}
    (h : l1.lookup n = none) : (l1 ++ l2).lookup n = l2.lookup n := by
  induction l1 with
  | nil => rfl
  | cons p ps ih =>
    obtain ⟨k, w⟩ := p
    by_cases he : n = k
    · simp [List.lookup, he] at h
    · simp only [List.cons_append, List.lookup, beq_eq_false_iff_ne.2 he] at h ⊢
      exact ih h

/-- The row placement computed by `drawScenario` for any scenario: when
some node has no incoming arrow, zero-incoming nodes go to the upper row
and the rest to the lower row; when every node has an incoming arrow, the
fallback puts all nodes on the upper row. -/
theorem nodeY_rows (s : Scenario) (rectMinY extra : Int) (n : String) (hn : n ∈ s.Nodes) :
    ((∀ m ∈ s.Nodes, incomingCount s m ≠ 0) →
      nodeY s rectMinY extra n = topY rectMinY extra) ∧
    ((∃ m ∈ s.Nodes, incomingCount s m = 0) →
      (incomingCount s n = 0 → nodeY s rectMinY extra n = topY rectMinY extra) ∧
      (incomingCount s n ≠ 0 → nodeY s rectMinY extra n = botY rectMinY extra)) := by
  constructor
  · intro hall
    have he : early s = [] := by
      rw [early, List.filter_eq_nil_iff]
      intro m hm
      simp [hall m hm]
    rw [nodeY, positionsY, earlyFinal, lateFinal, if_pos he, if_pos he]
    rw [List.map_nil, List.append_nil, lookup_map_pair_of_mem _ _ _ hn]
    rfl
  · rintro ⟨m0, hm0, hz⟩
    have hne : early s ≠ [] :=
      List.ne_nil_of_mem (List.mem_filter.2 ⟨hm0, by simp [hz]⟩)
    constructor
    · intro h0
      have hmem : n ∈ early s := List.mem_filter.2 ⟨hn, by simp [h0]⟩
      rw [nodeY, positionsY, earlyFinal, if_neg hne]
      rw [lookup_append_some (lookup_map_pair_of_mem _ _ _ hmem)]
      rfl
    · intro hnz
      have hnin : n ∉ early s := by
        intro hmem
        have := (List.mem_filter.1 hmem).2
        simp at this
        exact hnz this
      have hlate : n ∈ late s := List.mem_filter.2 ⟨hn, by simp [hnz]⟩
      rw [nodeY, positionsY, earlyFinal, lateFinal, if_neg hne, if_neg hne]
      rw [lookup_append_none (lookup_map_pair_of_not_mem _ _ _ hnin)]
      rw [lookup_map_pair_of_mem _ _ _ hlate]
      rfl

end ThreeAxis

/-- C6: in the 64-scenario revision's panel layout, for every scenario,
nodes with zero incoming edges (a bidirectional edge counting as incoming
at both endpoints) are placed on the upper (earlier) row and nodes with at
least one incoming edge on the lower (later) row, except that when every
node has an incoming edge all nodes are placed on the upper row; the upper
row is strictly above the lower row. -/
theorem C6_row_placement :
    ∀ s ∈ ThreeAxis.generateScenarios, ∀ (rectMinY extra : Int), ∀ n ∈ s.Nodes,
      ThreeAxis.topY rectMinY extra < ThreeAxis.botY rectMinY extra ∧
      ((∀ m ∈ s.Nodes, ThreeAxis.incomingCount s m ≠ 0) →
        ThreeAxis.nodeY s rectMinY extra n = ThreeAxis.topY rectMinY extra) ∧
      ((∃ m ∈ s.Nodes, ThreeAxis.incomingCount s m = 0) →
        (ThreeAxis.incomingCount s n = 0 →
          ThreeAxis.nodeY s rectMinY extra n = ThreeAxis.topY rectMinY extra) ∧
        (ThreeAxis.incomingCount s n ≠ 0 →
          ThreeAxis.nodeY s rectMinY extra n = ThreeAxis.botY rectMinY extra)) := by
  intro s _ rectMinY extra n hn
  refine ⟨?_, (ThreeAxis.nodeY_rows s rectMinY extra n hn).1,
    (ThreeAxis.nodeY_rows s rectMinY extra n hn).2⟩
  rw [ThreeAxis.topY, ThreeAxis.botY]
  omega

/-- Witness for C6: in scenario A → B (no C, no D), node B has an incoming
edge and is placed on the lower row. -/
theorem C6_row_placement_witness :
    ThreeAxis.nodeY (ThreeAxis.mkScenario 1 0 0) 0 0 "B" = ThreeAxis.botY 0 0 :=
  ((C6_row_placement (ThreeAxis.mkScenario 1 0 0) (by decide) 0 0 "B" (by decide)).2.2
    ⟨"A", by decide, by decide⟩).2 (by decide)


/-- If the x coordinate has arrived (`a = dx`) but the y coordinate has not
(`b < -dy`), the test `2*err >= dy` fails: the loop never overshoots in x. -/
theorem bres_no_x_overshoot (dx dy b : Int) (hdx : 0 ≤ dx) (hb : 0 ≤ b)
    (hblt : b < -dy) : 2 * ((1 + b) * dx + (1 + dx) * dy) < dy := by
  have hdyneg : dy < 0 := by omega
  have h : (1 + b) * dx ≤ (-dy) * dx :=
    mul_le_mul_of_nonneg_right (by omega) hdx
  nlinarith [h]

/-- If the y coordinate has arrived (`b = -dy`) but the x coordinate has
not (`a < dx`), the test `2*err <= dx` fails: the loop never overshoots in
y. -/
theorem bres_no_y_overshoot (dx dy a : Int) (hdy : dy ≤ 0) (ha : 0 ≤ a)
    (halt : a < dx) : 2 * ((1 + -dy) * dx + (1 + a) * dy) > dx := by
  have hdx1 : 1 ≤ dx := by omega
  have h : dx * dy ≤ (1 + a) * dy :=
    mul_le_mul_of_nonpos_right (by omega) hdy
  nlinarith [h]

theorem bresStep_xy (dx dy sx sy x y e : Int) (hc1 : 2 * e ≥ dy) (hc2 : 2 * e ≤ dx)
    (he2 : wrap64 (2 * e) = 2 * e) (hx : wrap64 (x + sx) = x + sx)
    (hy : wrap64 (y + sy) = y + sy) (he1 : wrap64 (e + dy) = e + dy)
    (he3 : wrap64 (e + dy + dx) = e + dy + dx) :
    bresStep dx dy sx sy ⟨x, y, e⟩ = ⟨x + sx, y + sy, e + dy + dx⟩ := by
  simp only [bresStep, goMul, goAdd]
  rw [show (2 : Int) * e = 2 * e from rfl]
  rw [he2, if_pos hc1, if_pos hc2]
  simp only [he1]
  rw [hx, hy, he3]

theorem bresStep_x (dx dy sx sy x y e : Int) (hc1 : 2 * e ≥ dy) (hc2 : ¬ 2 * e ≤ dx)
    (he2 : wrap64 (2 * e) = 2 * e) (hx : wrap64 (x + sx) = x + sx)
    (he1 : wrap64 (e + dy) = e + dy) :
    bresStep dx dy sx sy ⟨x, y, e⟩ = ⟨x + sx, y, e + dy⟩ := by
  simp only [bresStep, goMul, goAdd]
  rw [he2, if_pos hc1, if_neg hc2]
  rw [hx, he1]

theorem bresStep_y (dx dy sx sy x y e : Int) (hc1 : ¬ 2 * e ≥ dy) (hc2 : 2 * e ≤ dx)
    (he2 : wrap64 (2 * e) = 2 * e) (hy : wrap64 (y + sy) = y + sy)
    (he4 : wrap64 (e + dx) = e + dx) :
    bresStep dx dy sx sy ⟨x, y, e⟩ = ⟨x, y + sy, e + dx⟩ := by
  simp only [bresStep, goMul, goAdd]
  rw [he2, if_neg hc1, if_pos hc2]
  rw [hy, he4]

theorem drawLineLoop_exit (dx dy sx sy x1 y1 e : Int) (n : Nat) :
    drawLineLoop dx dy sx sy x1 y1 (n + 1) ⟨x1, y1, e⟩ = some [(x1, y1)] := by
  simp [drawLineLoop]

theorem drawLineLoop_go (dx dy sx sy x1 y1 x y e : Int) (n : Nat)
    (h : ¬ (x = x1 ∧ y = y1)) :
    drawLineLoop dx dy sx sy x1 y1 (n + 1) ⟨x, y, e⟩ =
      match drawLineLoop dx dy sx sy x1 y1 n (bresStep dx dy sx sy ⟨x, y, e⟩) with
      | none => none
      | some ps => some ((x, y) :: ps) := by
  simp only [drawLineLoop]
  rw [if_neg h]

/-- Every state the Bresenham loop of `drawLine` reaches from in-range
endpoints has the form `(x0 + a*sx, y0 + b*sy)` with error
`(1+b)*dx + (1+a)*dy`, `0 ≤ a ≤ dx` and `0 ≤ b ≤ -dy`, and that error
stays in `[(3*dy - dx)/2, (3*dx - dy)/2]`, so no 64-bit operation wraps;
from any such state the loop reaches `(x1, y1)` within
`(dx - a) + (-dy - b)` further iterations and exits there, with `(x1, y1)`
as its last plotted point. -/
theorem drawLineLoop_reach (dx dy sx sy x0 y0 : Int)
    (hdx : 0 ≤ dx) (hdxB : dx ≤ 4294967296)
    (hdy : dy ≤ 0) (hdyB : -4294967296 ≤ dy)
    (hsx : sx = 1 ∨ sx = -1) (hsy : sy = 1 ∨ sy = -1)
    (hx0l : -2147483648 ≤ x0) (hx0r : x0 ≤ 2147483648)
    (hy0l : -2147483648 ≤ y0) (hy0r : y0 ≤ 2147483648) :
    ∀ (k : Nat) (a b : Int), 0 ≤ a → a ≤ dx → 0 ≤ b → b ≤ -dy →
      3 * dy - dx ≤ 2 * ((1 + b) * dx + (1 + a) * dy) →
      2 * ((1 + b) * dx + (1 + a) * dy) ≤ 3 * dx - dy →
      dx - a + (-dy - b) ≤ (k : Int) →
      ∃ ps, drawLineLoop dx dy sx sy (x0 + dx * sx) (y0 + -dy * sy) (k + 1)
          ⟨x0 + a * sx, y0 + b * sy, (1 + b) * dx + (1 + a) * dy⟩ = some ps ∧
        ps.getLast? = some (x0 + dx * sx, y0 + -dy * sy) := by
  intro k
  induction k with
  | zero =>
    intro a b ha hadx hb hbdy hinv1 hinv2 hm
    have ha' : a = dx := by omega
    have hb' : b = -dy := by omega
    subst ha'
    subst hb'
    exact ⟨[(x0 + a * sx, y0 + -dy * sy)], drawLineLoop_exit _ _ _ _ _ _ _ 0, rfl⟩
  | succ k ih =>
    intro a b ha hadx hb hbdy hinv1 hinv2 hm
    by_cases hend : a = dx ∧ b = -dy
    · obtain ⟨h1, h2⟩ := hend
      subst h1
      subst h2
      exact ⟨[(x0 + a * sx, y0 + -dy * sy)],
        drawLineLoop_exit _ _ _ _ _ _ _ (k + 1), rfl⟩
    · have hxney : ¬ (x0 + a * sx = x0 + dx * sx ∧ y0 + b * sy = y0 + -dy * sy) := by
        rintro ⟨hx, hy⟩
        apply hend
        rcases hsx with rfl | rfl <;> rcases hsy with rfl | rfl <;>
          exact ⟨by omega, by omega⟩
      rw [drawLineLoop_go _ _ _ _ _ _ _ _ _ _ hxney]
      have hxw : wrap64 (x0 + a * sx + sx) = x0 + a * sx + sx := by
        refine wrap64_eq_self _ ?_ ?_ <;> rcases hsx with rfl | rfl <;> omega
      have hyw : wrap64 (y0 + b * sy + sy) = y0 + b * sy + sy := by
        refine wrap64_eq_self _ ?_ ?_ <;> rcases hsy with rfl | rfl <;> omega
      have he2w : wrap64 (2 * ((1 + b) * dx + (1 + a) * dy)) =
          2 * ((1 + b) * dx + (1 + a) * dy) :=
        wrap64_eq_self _ (by linarith) (by linarith)
      have he1w : wrap64 ((1 + b) * dx + (1 + a) * dy + dy) =
          (1 + b) * dx + (1 + a) * dy + dy :=
        wrap64_eq_self _ (by linarith) (by linarith)
      have he3w : wrap64 ((1 + b) * dx + (1 + a) * dy + dy + dx) =
          (1 + b) * dx + (1 + a) * dy + dy + dx :=
        wrap64_eq_self _ (by linarith) (by linarith)
      have he4w : wrap64 ((1 + b) * dx + (1 + a) * dy + dx) =
          (1 + b) * dx + (1 + a) * dy + dx :=
        wrap64_eq_self _ (by linarith) (by linarith)
      by_cases hc1 : 2 * ((1 + b) * dx + (1 + a) * dy) ≥ dy <;>
        by_cases hc2 : 2 * ((1 + b) * dx + (1 + a) * dy) ≤ dx
      · -- diagonal step: both branches fire
        have halt : a < dx := by
          rcases lt_or_eq_of_le hadx with h | rfl
          · exact h
          · exfalso
            have hblt : b < -dy := by
              rcases lt_or_eq_of_le hbdy with h' | rfl
              · exact h'
              · exact absurd ⟨rfl, rfl⟩ hend
            exact absurd hc1 (not_le.2 (bres_no_x_overshoot a dy b hdx hb hblt))
        have hblt : b < -dy := by
          rcases lt_or_eq_of_le hbdy with h' | rfl
          · exact h'
          · exact absurd hc2 (not_le.2 (bres_no_y_overshoot dx dy a hdy ha halt))
        obtain ⟨ps, hps, hlast⟩ := ih (a + 1) (b + 1) (by omega) (by omega)
          (by omega) (by omega) (by linarith) (by linarith) (by push_cast at hm; omega)
        rw [bresStep_xy _ _ _ _ _ _ _ hc1 hc2 he2w hxw hyw he1w he3w]
        have hstate : (⟨x0 + a * sx + sx, y0 + b * sy + sy,
            (1 + b) * dx + (1 + a) * dy + dy + dx⟩ : LineState) =
            ⟨x0 + (a + 1) * sx, y0 + (b + 1) * sy,
              (1 + (b + 1)) * dx + (1 + (a + 1)) * dy⟩ := by
          rw [LineState.mk.injEq]
          refine ⟨by ring, by ring, by ring⟩
        rw [hstate, hps]
        refine ⟨(x0 + a * sx, y0 + b * sy) :: ps, rfl, ?_⟩
        cases ps with
        | nil => cases hlast
        | cons p ps' => rw [List.getLast?_cons_cons]; exact hlast
      · -- only the x branch fires
        have halt : a < dx := by
          rcases lt_or_eq_of_le hadx with h | rfl
          · exact h
          · exfalso
            have hblt : b < -dy := by
              rcases lt_or_eq_of_le hbdy with h' | rfl
              · exact h'
              · exact absurd ⟨rfl, rfl⟩ hend
            exact absurd hc1 (not_le.2 (bres_no_x_overshoot a dy b hdx hb hblt))
        obtain ⟨ps, hps, hlast⟩ := ih (a + 1) b (by omega) (by omega)
          hb hbdy (by linarith) (by linarith) (by push_cast at hm; omega)
        rw [bresStep_x _ _ _ _ _ _ _ hc1 hc2 he2w hxw he1w]
        have hstate : (⟨x0 + a * sx + sx, y0 + b * sy,
            (1 + b) * dx + (1 + a) * dy + dy⟩ : LineState) =
            ⟨x0 + (a + 1) * sx, y0 + b * sy,
              (1 + b) * dx + (1 + (a + 1)) * dy⟩ := by
          rw [LineState.mk.injEq]
          refine ⟨by ring, rfl, by ring⟩
        rw [hstate, hps]
        refine ⟨(x0 + a * sx, y0 + b * sy) :: ps, rfl, ?_⟩
        cases ps with
        | nil => cases hlast
        | cons p ps' => rw [List.getLast?_cons_cons]; exact hlast
      · -- only the y branch fires
        have hblt : b < -dy := by
          rcases lt_or_eq_of_le hbdy with h' | rfl
          · exact h'
          · exfalso
            have haltx : a < dx := by
              rcases lt_or_eq_of_le hadx with h | rfl
              · exact h
              · exact absurd ⟨rfl, rfl⟩ hend
            exact absurd hc2 (not_le.2 (bres_no_y_overshoot dx dy a hdy ha haltx))
        obtain ⟨ps, hps, hlast⟩ := ih a (b + 1) ha hadx (by omega) (by omega)
          (by linarith) (by linarith) (by push_cast at hm; omega)
        rw [bresStep_y _ _ _ _ _ _ _ hc1 hc2 he2w hyw he4w]
        have hstate : (⟨x0 + a * sx, y0 + b * sy + sy,
            (1 + b) * dx + (1 + a) * dy + dx⟩ : LineState) =
            ⟨x0 + a * sx, y0 + (b + 1) * sy,
              (1 + (b + 1)) * dx + (1 + a) * dy⟩ := by
          rw [LineState.mk.injEq]
          refine ⟨rfl, by ring, by ring⟩
        rw [hstate, hps]
        refine ⟨(x0 + a * sx, y0 + b * sy) :: ps, rfl, ?_⟩
        cases ps with
        | nil => cases hlast
        | cons p ps' => rw [List.getLast?_cons_cons]; exact hlast
      · -- both tests cannot fail at once since dy ≤ 0 ≤ dx
        exfalso
        push_neg at hc1 hc2
        linarith

/-- For endpoints with all coordinates in `[-2^31, 2^31]`, `drawLine`
terminates with `(x1, y1)` as its last plotted point: no initialization
or loop arithmetic wraps. -/
theorem drawLine_total_in_range (x0 y0 x1 y1 : Int)
    (hx0l : -2147483648 ≤ x0) (hx0r : x0 ≤ 2147483648)
    (hy0l : -2147483648 ≤ y0) (hy0r : y0 ≤ 2147483648)
    (hx1l : -2147483648 ≤ x1) (hx1r : x1 ≤ 2147483648)
    (hy1l : -2147483648 ≤ y1) (hy1r : y1 ≤ 2147483648) :
    ∃ ps, drawLine x0 y0 x1 y1 = some ps ∧ ps.getLast? = some (x1, y1) := by
  obtain ⟨A, hA⟩ : ∃ A, (if x1 - x0 < 0 then -(x1 - x0) else x1 - x0) = A := ⟨_, rfl⟩
  obtain ⟨B, hB⟩ : ∃ B, (if y1 - y0 < 0 then -(y1 - y0) else y1 - y0) = B := ⟨_, rfl⟩
  have hA0 : 0 ≤ A := by rw [← hA]; split <;> omega
  have hAB' : A ≤ 4294967296 := by rw [← hA]; split <;> omega
  have hB0 : 0 ≤ B := by rw [← hB]; split <;> omega
  have hBB' : B ≤ 4294967296 := by rw [← hB]; split <;> omega
  have hsubx : goSub x1 x0 = x1 - x0 := by
    rw [goSub]
    exact wrap64_eq_self _ (by omega) (by omega)
  have hsuby : goSub y1 y0 = y1 - y0 := by
    rw [goSub]
    exact wrap64_eq_self _ (by omega) (by omega)
  have habsx : absInt (x1 - x0) = A := by
    rw [absInt, ← hA]
    split
    · exact wrap64_eq_self _ (by omega) (by omega)
    · rfl
  have habsy : absInt (y1 - y0) = B := by
    rw [absInt, ← hB]
    split
    · exact wrap64_eq_self _ (by omega) (by omega)
    · rfl
  have hnegB : wrap64 (-B) = -B := wrap64_eq_self _ (by omega) (by omega)
  have herr : goAdd A (-B) = A + -B := by
    rw [goAdd]
    exact wrap64_eq_self _ (by omega) (by omega)
  have hsx : (if x0 > x1 then (-1 : Int) else 1) = 1 ∨
      (if x0 > x1 then (-1 : Int) else 1) = -1 := by
    split
    · exact Or.inr rfl
    · exact Or.inl rfl
  have hsy : (if y0 > y1 then (-1 : Int) else 1) = 1 ∨
      (if y0 > y1 then (-1 : Int) else 1) = -1 := by
    split
    · exact Or.inr rfl
    · exact Or.inl rfl
  have hx1e : x0 + A * (if x0 > x1 then (-1 : Int) else 1) = x1 := by
    rw [← hA]
    split_ifs <;> omega
  have hy1e : y0 + B * (if y0 > y1 then (-1 : Int) else 1) = y1 := by
    rw [← hB]
    split_ifs <;> omega
  have h := drawLineLoop_reach A (-B) (if x0 > x1 then (-1 : Int) else 1)
    (if y0 > y1 then (-1 : Int) else 1) x0 y0 hA0 hAB' (by omega) (by omega)
    hsx hsy hx0l hx0r hy0l hy0r
    ((A - -B).toNat) 0 0 le_rfl hA0 le_rfl (by omega)
    (by linarith) (by linarith)
    (by rw [Int.toNat_of_nonneg (by omega)]; omega)
  rw [show -(-B) = B by ring] at h
  rw [hx1e, hy1e] at h
  obtain ⟨ps, hps, hlast⟩ := h
  refine ⟨ps, ?_, hlast⟩
  simp only [drawLine]
  rw [hsubx, hsuby, habsx, habsy, hnegB, herr]
  have hstate : (⟨x0 + 0 * (if x0 > x1 then (-1 : Int) else 1),
      y0 + 0 * (if y0 > y1 then (-1 : Int) else 1),
      (1 + 0) * A + (1 + 0) * -B⟩ : LineState) = ⟨x0, y0, A + -B⟩ := by
    rw [LineState.mk.injEq]
    refine ⟨by ring, by ring, by ring⟩
  rw [hstate] at hps
  exact hps

/-- At the frozen state produced by the endpoints `(0,0) -> (MinInt64, 1)`
— `dx` wraps negative and `err` wraps to `MaxInt64`, so `e2` wraps to
`-2` — neither step test fires and the loop body leaves the state
unchanged. -/
theorem bresStep_frozen :
    bresStep (-9223372036854775808) (-1) (-1) 1 ⟨0, 0, 9223372036854775807⟩ =
      ⟨0, 0, 9223372036854775807⟩ := by
  decide

/-- From the frozen state the Bresenham loop never exits: every fuel is
exhausted, i.e. the Go loop runs forever. -/
theorem drawLineLoop_frozen :
    ∀ n : Nat, drawLineLoop (-9223372036854775808) (-1) (-1) 1
      (-9223372036854775808) 1 n ⟨0, 0, 9223372036854775807⟩ = none := by
  intro n
  induction n with
  | zero => rfl
  | succ n ih =>
    rw [drawLineLoop_go _ _ _ _ _ _ _ _ _ _ (by decide), bresStep_frozen, ih]

/-- C9 counterexample: over Go's wrapping 64-bit `int`, `drawLine` from
`(0, 0)` to `(MinInt64, 1)` does not terminate: `abs(x1-x0)` wraps to the
negative `MinInt64`, `err` wraps to `MaxInt64`, `e2 = 2*err` wraps to
`-2`, both step tests fail, and the loop body is the identity on the
state while the exit test is false — so the current point never becomes
`(x1, y1)` and the claim's "terminates for every pair of integer
endpoints" is refuted (`drawLine` under its fuel reports `none`). -/
theorem C9_wrap_nontermination_counterexample :
    drawLine 0 0 (-9223372036854775808) 1 = none ∧
    bresStep (-9223372036854775808) (-1) (-1) 1 ⟨0, 0, 9223372036854775807⟩ =
      ⟨0, 0, 9223372036854775807⟩ ∧
    ¬ ((0 : Int) = -9223372036854775808 ∧ (0 : Int) = 1) :=
  ⟨by decide, by decide, by decide⟩

/-- C9 amended: the integer Bresenham loop of `drawLine` terminates for
every pair of integer endpoints whose coordinates lie in
`[-2^31, 2^31]` (every canvas coordinate the program draws with): the
current point becomes exactly `(x1, y1)`, at which moment the loop exits,
so `drawLine` is total there and its last plotted point is `(x1, y1)`.
Outside that range Go's wrapping 64-bit arithmetic can freeze the loop
forever: from the state reached for the endpoints `(0,0) -> (MinInt64,1)`
the loop exhausts every fuel. -/
theorem C9_drawLine_terminates_in_range :
    (∀ x0 y0 x1 y1 : Int,
      -2147483648 ≤ x0 → x0 ≤ 2147483648 → -2147483648 ≤ y0 → y0 ≤ 2147483648 →
      -2147483648 ≤ x1 → x1 ≤ 2147483648 → -2147483648 ≤ y1 → y1 ≤ 2147483648 →
      ∃ ps, drawLine x0 y0 x1 y1 = some ps ∧ ps.getLast? = some (x1, y1)) ∧
    (∀ n : Nat, drawLineLoop (-9223372036854775808) (-1) (-1) 1
      (-9223372036854775808) 1 n ⟨0, 0, 9223372036854775807⟩ = none) :=
  ⟨fun x0 y0 x1 y1 h1 h2 h3 h4 h5 h6 h7 h8 =>
    drawLine_total_in_range x0 y0 x1 y1 h1 h2 h3 h4 h5 h6 h7 h8,
   drawLineLoop_frozen⟩

/-- Witness for amended C9: the segment from the origin to `(3, 2)`. -/
theorem C9_drawLine_terminates_witness :
    ∃ ps, drawLine 0 0 3 2 = some ps ∧ ps.getLast? = some (3, 2) :=
  C9_drawLine_terminates_in_range.1 0 0 3 2 (by decide) (by decide) (by decide)
    (by decide) (by decide) (by decide) (by decide) (by decide)

/-- Splitting at an explicit whitespace character splits the fields. -/
theorem fieldsAux_append_space (sp : Char) (hsp : isGoSpace sp = true) :
    ∀ (l1 l2 cur : List Char),
      fieldsAux cur (l1 ++ sp :: l2) = fieldsAux cur l1 ++ fieldsAux [] l2 := by
  intro l1
  induction l1 with
  | nil =>
    intro l2 cur
    by_cases hc : cur = []
    · subst hc
      simp [fieldsAux, hsp]
    · simp [fieldsAux, hsp, hc]
  | cons c l1 ih =>
    intro l2 cur
    by_cases hws : isGoSpace c
    · simp only [List.cons_append, fieldsAux, if_pos hws, List.append_eq]
      by_cases hc : cur = []
      · subst hc
        simp only [if_pos rfl]
        exact ih l2 []
      · simp only [if_neg hc]
        rw [ih l2 [], List.cons_append]
    · simp only [List.cons_append, fieldsAux, if_neg hws, List.append_eq]
      exact ih l2 (c :: cur)

theorem fieldsAux_all_nonspace :
    ∀ (l cur : List Char), (∀ c ∈ l, isGoSpace c = false) →
      fieldsAux cur l = if cur.reverse ++ l = [] then [] else [cur.reverse ++ l] := by
  intro l
  induction l with
  | nil =>
    intro cur _
    simp only [fieldsAux, List.append_nil]
    by_cases hc : cur = []
    · subst hc
      rfl
    · rw [if_neg hc, if_neg (fun h => hc (List.reverse_eq_nil_iff.1 h))]
  | cons c l ih =>
    intro cur h
    have hc : isGoSpace c = false := h c (List.mem_cons_self c l)
    simp only [fieldsAux]
    rw [if_neg (by simp [hc])]
    rw [ih (c :: cur) (fun d hd => h d (List.mem_cons_of_mem c hd))]
    have heq : (c :: cur).reverse ++ l = cur.reverse ++ c :: l := by
      rw [List.reverse_cons, List.append_assoc]
      rfl
    rw [heq]

theorem goFields_word (w : List Char) (hne : w ≠ [])
    (hw : ∀ c ∈ w, isGoSpace c = false) : goFields w = [w] := by
  rw [goFields, fieldsAux_all_nonspace w [] hw]
  simp [hne]

theorem goFields_append_word (line w : List Char) (hne : w ≠ [])
    (hw : ∀ c ∈ w, isGoSpace c = false) :
    goFields (line ++ ' ' :: w) = goFields line ++ [w] := by
  rw [goFields, fieldsAux_append_space ' ' rfl line w []]
  rw [← goFields, ← goFields, goFields_word w hne hw]

theorem fieldsAux_words :
    ∀ (l cur : List Char), (∀ c ∈ cur, isGoSpace c = false) →
      ∀ w ∈ fieldsAux cur l, w ≠ [] ∧ ∀ c ∈ w, isGoSpace c = false := by
  intro l
  induction l with
  | nil =>
    intro cur hcur w hw
    by_cases hc : cur = []
    · subst hc
      cases hw
    · simp only [fieldsAux, if_neg hc] at hw
      rcases List.mem_singleton.1 hw with rfl
      refine ⟨by simp [hc], ?_⟩
      intro c hcmem
      exact hcur c (List.mem_reverse.1 hcmem)
  | cons c l ih =>
    intro cur hcur w hw
    by_cases hws : isGoSpace c
    · simp only [fieldsAux, if_pos hws] at hw
      by_cases hc : cur = []
      · subst hc
        simp only [if_pos rfl] at hw
        exact ih [] (by simp) w hw
      · simp only [if_neg hc, List.mem_cons] at hw
        rcases hw with rfl | hw
        · refine ⟨by simp [hc], ?_⟩
          intro d hd
          exact hcur d (List.mem_reverse.1 hd)
        · exact ih [] (by simp) w hw
    · simp only [fieldsAux, if_neg hws] at hw
      refine ih (c :: cur) ?_ w hw
      intro d hd
      rcases List.mem_cons.1 hd with rfl | hd
      · simpa using hws
      · exact hcur d hd

theorem fieldsAux_eq_nil_iff :
    ∀ (l cur : List Char),
      (fieldsAux cur l = [] ↔ cur = [] ∧ ∀ c ∈ l, isGoSpace c = true) := by
  intro l
  induction l with
  | nil =>
    intro cur
    by_cases hc : cur = []
    · subst hc
      simp [fieldsAux]
    · simp [fieldsAux, hc]
  | cons c l ih =>
    intro cur
    by_cases hws : isGoSpace c
    · by_cases hc : cur = []
      · subst hc
        simp only [fieldsAux, hws]
        simp only [if_true]
        rw [ih []]
        simp [hws]
      · simp only [fieldsAux, hws, if_true, if_neg hc]
        simp [hc]
    · simp only [fieldsAux, if_neg hws, ih]
      simp only [List.mem_cons]
      constructor
      · rintro ⟨habs, -⟩
        cases habs
      · rintro ⟨-, hall⟩
        exact absurd (hall c (Or.inl rfl)) (by simpa using hws)

theorem fieldsAux_all_space :
    ∀ (l cur : List Char), (∀ c ∈ l, isGoSpace c = true) →
      fieldsAux cur l = fieldsAux cur [] := by
  intro l
  induction l with
  | nil => intro cur _; rfl
  | cons c l ih =>
    intro cur h
    have hws : isGoSpace c = true := h c (List.mem_cons_self c l)
    have hrest : ∀ d ∈ l, isGoSpace d = true := fun d hd => h d (List.mem_cons_of_mem c hd)
    have hnil : fieldsAux ([] : List Char) l = [] := by
      rw [ih [] hrest]
      rfl
    by_cases hc : cur = []
    · subst hc
      show fieldsAux [] (c :: l) = fieldsAux [] []
      simp [fieldsAux, hws, hnil]
    · show fieldsAux cur (c :: l) = fieldsAux cur []
      simp [fieldsAux, hws, hc, hnil]

theorem fieldsAux_append_all_space :
    ∀ (l1 l2 cur : List Char), (∀ c ∈ l2, isGoSpace c = true) →
      fieldsAux cur (l1 ++ l2) = fieldsAux cur l1 := by
  intro l1
  induction l1 with
  | nil =>
    intro l2 cur h
    simpa using fieldsAux_all_space l2 cur h
  | cons c l1 ih =>
    intro l2 cur h
    by_cases hws : isGoSpace c
    · simp only [List.cons_append, fieldsAux, if_pos hws, List.append_eq]
      by_cases hc : cur = []
      · subst hc
        simp only [if_pos rfl]
        exact ih l2 [] h
      · simp only [if_neg hc, ih l2 [] h]
    · simp only [List.cons_append, fieldsAux, if_neg hws, List.append_eq]
      exact ih l2 (c :: cur) h

theorem goFields_dropWhile (l : List Char) :
    goFields (l.dropWhile isGoSpace) = goFields l := by
  induction l with
  | nil => rfl
  | cons c l ih =>
    by_cases hws : isGoSpace c
    · rw [List.dropWhile_cons_of_pos hws]
      rw [ih]
      show goFields l = fieldsAux [] (c :: l)
      rw [goFields]
      simp [fieldsAux, hws]
    · rw [List.dropWhile_cons_of_neg hws]

theorem goFields_trimChars (l : List Char) : goFields (trimChars l) = goFields l := by
  rw [trimChars]
  rw [← goFields_dropWhile l]
  set m := l.dropWhile isGoSpace with hm
  have hdecomp : m = (m.reverse.dropWhile isGoSpace).reverse ++
      (m.reverse.takeWhile isGoSpace).reverse := by
    have h1 : m.reverse.takeWhile isGoSpace ++ m.reverse.dropWhile isGoSpace = m.reverse :=
      List.takeWhile_append_dropWhile isGoSpace m.reverse
    calc m = m.reverse.reverse := (List.reverse_reverse m).symm
      _ = (m.reverse.takeWhile isGoSpace ++ m.reverse.dropWhile isGoSpace).reverse := by
          rw [h1]
      _ = (m.reverse.dropWhile isGoSpace).reverse ++
          (m.reverse.takeWhile isGoSpace).reverse := by
          rw [List.reverse_append]
  conv_rhs => rw [hdecomp]
  rw [goFields, goFields, fieldsAux_append_all_space]
  intro c hc
  rw [List.mem_reverse] at hc
  exact List.mem_takeWhile_imp hc

theorem wrapLines_ne_nil (mw : Int) :
    ∀ (wsl : List (List Char)) (line : List Char), wrapLines mw line wsl ≠ [] := by
  intro wsl
  induction wsl with
  | nil =>
    intro line
    simp [wrapLines]
  | cons w ws ih =>
    intro line
    rw [wrapLines]
    split
    · exact ih _
    · exact List.cons_ne_nil _ _

theorem wrapLines_fields (mw : Int) :
    ∀ (wsl : List (List Char)) (line : List Char),
      (∀ w ∈ wsl, w ≠ [] ∧ ∀ c ∈ w, isGoSpace c = false) →
      (wrapLines mw line wsl).flatMap goFields = goFields line ++ wsl := by
  intro wsl
  induction wsl with
  | nil =>
    intro line _
    simp [wrapLines]
  | cons w ws ih =>
    intro line hw
    have hwword := hw w (List.mem_cons_self w ws)
    have hws' : ∀ v ∈ ws, v ≠ [] ∧ ∀ c ∈ v, isGoSpace c = false :=
      fun v hv => hw v (List.mem_cons_of_mem w hv)
    rw [wrapLines]
    split
    · rw [ih (line ++ ' ' :: w) hws']
      rw [goFields_append_word line w hwword.1 hwword.2]
      simp
    · rw [List.flatMap_cons, ih w hws', goFields_word w hwword.1 hwword.2]
      simp

/-- C10: for every input text, `drawWrappedLabel` loses and reorders
nothing — concatenating, in order, the whitespace-separated words of each
produced line equals `strings.Fields` of the input text; the returned
height equals 14 (the line height) times the number of produced lines; and
that number is 0 exactly when the text is empty or whitespace-only. -/
theorem C10_wrap_words_and_height (text : List Char) (maxWidth : Int) :
    (drawWrappedLabelLines text maxWidth).flatMap goFields = goFields text ∧
    drawWrappedLabelHeight text maxWidth =
      14 * (drawWrappedLabelLines text maxWidth).length ∧
    ((drawWrappedLabelLines text maxWidth).length = 0 ↔
      ∀ c ∈ text, isGoSpace c = true) := by
  have hGF := goFields_trimChars text
  refine ⟨?_, by rw [drawWrappedLabelHeight, lineHeight, Nat.mul_comm], ?_⟩ <;>
    rcases hft : goFields (trimChars text) with _ | ⟨w, wsl⟩
  · have hlines : drawWrappedLabelLines text maxWidth = [] := by
      rw [drawWrappedLabelLines]
      split
      · rfl
      · rw [hft]
    rw [hlines, ← hGF, hft]
    rfl
  · have htne : trimChars text ≠ [] := by
      intro h
      rw [h] at hft
      cases hft
    have hlines : drawWrappedLabelLines text maxWidth = wrapLines maxWidth w wsl := by
      rw [drawWrappedLabelLines]
      rw [if_neg htne, hft]
    have hwords : ∀ v ∈ (w :: wsl), v ≠ [] ∧ ∀ c ∈ v, isGoSpace c = false := by
      intro v hv
      refine fieldsAux_words (trimChars text) [] (by simp) v ?_
      rw [← goFields, hft]
      exact hv
    rw [hlines, wrapLines_fields maxWidth wsl w
      (fun v hv => hwords v (List.mem_cons_of_mem w hv))]
    rw [goFields_word w (hwords w (List.mem_cons_self w wsl)).1
      (hwords w (List.mem_cons_self w wsl)).2]
    rw [← hGF, hft]
    rfl
  · have hlines : drawWrappedLabelLines text maxWidth = [] := by
      rw [drawWrappedLabelLines]
      split
      · rfl
      · rw [hft]
    have htext : goFields text = [] := by rw [← hGF, hft]
    have hall : ∀ c ∈ text, isGoSpace c = true :=
      ((fieldsAux_eq_nil_iff text []).1 htext).2
    rw [hlines]
    exact iff_of_true rfl hall
  · have htne : trimChars text ≠ [] := by
      intro h
      rw [h] at hft
      cases hft
    have hlines : drawWrappedLabelLines text maxWidth = wrapLines maxWidth w wsl := by
      rw [drawWrappedLabelLines]
      rw [if_neg htne, hft]
    constructor
    · intro hlen
      exact absurd (List.length_eq_zero.1 (hlines ▸ hlen)) (wrapLines_ne_nil maxWidth wsl w)
    · intro hall
      have htext : goFields text = [] :=
        (fieldsAux_eq_nil_iff text []).2 ⟨rfl, hall⟩
      rw [hGF, htext] at hft
      cases hft
